import Mathlib

/-!
# Verification of anime-organizer-rs

A shallow embedding of the watch-driven file organizer: the Copy-mode
watcher (`src/copy_watcher.rs`), the Mirror-mode watcher
(`src/sync_watcher.rs`) and the process-wide registries (`src/main.rs`).

Filesystem paths are modelled as lists of path components
(`Rust PathBuf` component view).  Filesystem trees are modelled by the
inductive `FsObj`; fallible filesystem calls are modelled by explicit
oracle parameters, and a panic (an `unwrap` on an error value in the
source) is modelled as `Option.none` or by a dedicated `panicked`
result constructor.
-/

/-- A filesystem path, as its list of components (the component view of a
Rust `PathBuf`). -/
abbrev FsPath := List String

/-- Rust `Path::ends_with(child)`: `child` must be a suffix of `self`
*as whole components* (`Path::new("a/b.partial").ends_with(".partial")`
is `false`; only a final component equal to `".partial"` matches). -/
def path_ends_with (p child : FsPath) : Bool :=
  child.isSuffixOf p

/-- The partial-download marker argument `".partial"` used by
`copy_watcher.rs`, as the single-component path Rust parses it into. -/
def markerSuffix : FsPath := [".partial"]

/-- A filesystem object.  `readable = false` on a directory models
`std::fs::read_dir` (or `walkdir` descent) failing for it. -/
inductive FsObj where
  | file (name : String) (size : Nat)
  | dir (name : String) (readable : Bool) (entries : List FsObj)

/-- The object's own file name (last path component). -/
def FsObj.name : FsObj → String
  | .file n _ => n
  | .dir n _ _ => n

/-- `DirEntry::file_type().is_dir()`. -/
def FsObj.isDir : FsObj → Bool
  | .file _ _ => false
  | .dir _ _ _ => true

mutual
/-- `is_downloading` from `copy_watcher.rs`, for the object `o` found at
path `p`.  Returns `none` when the source would panic: the unguarded
`std::fs::read_dir(file).unwrap()` on an unreadable directory.  A plain
file is never downloading.  For a readable directory the source first
scans direct entries for `e.path().ends_with(".partial")` (Rust `||`
short-circuits, so on a hit the second scan is not run), then re-reads
the directory, keeps only subdirectories and recurses. -/
def is_downloading (p : FsPath) : FsObj → Option Bool
  | .file _ _ => some false
  | .dir _ false _ => none
  | .dir _ true es =>
    if es.any (fun e => path_ends_with (p ++ [e.name]) markerSuffix) then
      some true
    else
      subdirs_downloading p es

/-- The second, filtered scan of `is_downloading`:
`read_dir(..).filter(is_dir).any(|e| is_downloading(e.path()))`, with a
panic (`none`) propagating and `any` short-circuiting on `true`. -/
def subdirs_downloading (p : FsPath) : List FsObj → Option Bool
  | [] => some false
  | e :: rest =>
    if e.isDir then
      match is_downloading (p ++ [e.name]) e with
      | none => none
      | some true => some true
      | some false => subdirs_downloading p rest
    else
      subdirs_downloading p rest
end

example : is_downloading ["w"] (FsObj.dir "w" true [FsObj.file ".partial" 0]) = some true := by
  decide

example : is_downloading ["w"] (FsObj.dir "w" true [FsObj.file "a.mkv.partial" 0]) = some false := by
  decide

example :
    is_downloading ["w"]
      (FsObj.dir "w" true [FsObj.dir "s" true [FsObj.file ".partial" 0]]) = some true := by
  decide

example : is_downloading ["w"] (FsObj.dir "w" true [FsObj.dir "s" false []]) = none := by
  decide

/-! ## Filesystem actions

Mutating filesystem calls performed by the watchers, recorded as a trace. -/

/-- A filesystem operation issued by the program. -/
inductive FsAct where
  | createDir (p : FsPath)
  | copyF (src dst : FsPath)
  | readDirA (p : FsPath)
  | removeF (p : FsPath)
  | removeD (p : FsPath)
deriving DecidableEq, Repr

/-- Does this filesystem operation delete something? -/
def FsAct.is_remove : FsAct → Bool
  | .removeF _ => true
  | .removeD _ => true
  | _ => false

/-- A step of a Copy-mode Mover, at the granularity the claims need:
the fixed-delay sleep, a filesystem operation, or the terminal
`MOVED_FILES.lock().await.insert(destination)`. -/
inductive Act where
  | sleep
  | fs (a : FsAct)
  | recordMoved (p : FsPath)
deriving DecidableEq, Repr

/-- Does this action delete something from the filesystem? -/
def Act.has_remove : Act → Bool
  | .fs a => a.is_remove
  | _ => false

/-! ## Copy-mode watcher (`copy_watcher.rs`) -/

/-- `CopyWatcher::copy_file`: the body of the `for path in paths` loop,
run with `DETECTED_FILES` locked.  A path is skipped when
`path.ends_with(".partial")` (whole-component comparison) or when it is
already in the detected set; otherwise it is inserted and a Mover is
spawned for it.  Returns the updated detected list and the paths for
which a Mover was spawned, in order. -/
def copy_file (detected : List FsPath) : List FsPath → List FsPath × List FsPath
  | [] => (detected, [])
  | p :: rest =>
    if path_ends_with p markerSuffix || detected.contains p then
      copy_file detected rest
    else
      let r := copy_file (detected ++ [p]) rest
      (r.1, p :: r.2)

/-- The Copy-mode receive loop: each Created event's path list is handed
to `copy_file`, threading the process-wide `DETECTED_FILES` set (the
mutex serializes the per-event loops).  Returns the final detected list
and the concatenated spawn list. -/
def process_events (detected : List FsPath) : List (List FsPath) → List FsPath × List FsPath
  | [] => (detected, [])
  | ev :: rest =>
    let r := copy_file detected ev
    let r2 := process_events r.1 rest
    (r2.1, r.2 ++ r2.2)

example : (copy_file [] [["w", "a.mkv"], ["w", ".partial"], ["w", "a.mkv"]]).2
    = [["w", "a.mkv"]] := by decide

/-- `create_folder`: returns immediately when the folder exists, else
`create_dir_all` (whose failure is only logged). -/
def create_folder_acts (existsOf : FsPath → Bool) (folder : FsPath) : List FsAct :=
  if existsOf folder then [] else [FsAct.createDir folder]

/-- `Mover::setup_destination_folder`: when a title was extracted and
`place_in_sub` is set, ensure `<destination>/<title>` exists and return
`<destination>/<title>/<filename>`; otherwise ensure `<destination>`
exists and return `<destination>/<filename>`.  The returned option is
`none` when `detected_file.file_name()` is `None` (the source would
panic on the `unwrap`). -/
def setup_destination_folder (destination detected_file : FsPath) (subfolder : Bool)
    (title : Option String) (existsOf : FsPath → Bool) : List FsAct × Option FsPath :=
  match title, subfolder with
  | some t, true =>
    let folder := destination ++ [t]
    (create_folder_acts existsOf folder,
     detected_file.getLast?.map (fun fname => folder ++ [fname]))
  | _, _ =>
    (create_folder_acts existsOf destination,
     detected_file.getLast?.map (fun fname => destination ++ [fname]))

example :
    (setup_destination_folder ["d"] ["w", "x.mkv"] true (some "T") (fun _ => false)).2
      = some (["d", "T", "x.mkv"]) := by decide
example :
    (setup_destination_folder ["d"] ["w", "x.mkv"] false (some "T") (fun _ => false)).2
      = some (["d", "x.mkv"]) := by decide

/-- What one iteration of `Mover::perform_move`'s retry loop observed:
`is_downloading` returned `true`; or the copy attempt failed; or it
succeeded. -/
inductive StepOutcome where
  | busy
  | copyFail
  | copySuccess
deriving DecidableEq, Repr

/-- `Mover::perform_move`: loop `while !file_moved`: sleep the fixed
delay, probe `is_downloading` (on `busy` loop again), attempt the copy
(the attempt's filesystem operations are `attempt`, lifted to `Act.fs`);
on failure log and loop, on success leave the loop and insert the
destination into `MOVED_FILES`.  The iteration outcomes are supplied as
a list; an exhausted list models a run still in the loop.  Returns the
trace and whether the Mover reached its terminal state. -/
def perform_move (attempt : List FsAct) (destination : FsPath) :
    List StepOutcome → List Act × Bool
  | [] => ([], false)
  | .busy :: rest =>
    let r := perform_move attempt destination rest
    (Act.sleep :: r.1, r.2)
  | .copyFail :: rest =>
    let r := perform_move attempt destination rest
    (Act.sleep :: (attempt.map Act.fs ++ r.1), r.2)
  | .copySuccess :: _ =>
    (Act.sleep :: (attempt.map Act.fs ++ [Act.recordMoved destination]), true)

example :
    perform_move [FsAct.copyF ["w", "a"] ["d", "a"]] ["d", "a"]
      [StepOutcome.busy, StepOutcome.copyFail, StepOutcome.copySuccess]
    = ([Act.sleep,
        Act.sleep, Act.fs (FsAct.copyF ["w", "a"] ["d", "a"]),
        Act.sleep, Act.fs (FsAct.copyF ["w", "a"] ["d", "a"]),
        Act.recordMoved ["d", "a"]], true) := by decide

mutual
/-- `copy_dir_all(src, dst)`: `create_dir_all(dst)`, then for each entry
copy files and recurse into directories (depth-first, preserving
relative structure).  `entries` is the content of the source directory
at `src`; the trace lists the operations the call issues. -/
def copy_dir_all_acts (src dst : FsPath) (entries : List FsObj) : List FsAct :=
  FsAct.createDir dst :: copy_entries_acts src dst entries

/-- The `for entry in read_dir(src)` loop of `copy_dir_all`. -/
def copy_entries_acts (src dst : FsPath) : List FsObj → List FsAct
  | [] => []
  | .file n _ :: rest =>
    FsAct.copyF (src ++ [n]) (dst ++ [n]) :: copy_entries_acts src dst rest
  | .dir n _ es :: rest =>
    copy_dir_all_acts (src ++ [n]) (dst ++ [n]) es ++ copy_entries_acts src dst rest
end

/-- The filesystem operations of one copy attempt by the Mover for
`detected_file`: `copy_dir_all` when the source is a directory,
otherwise a single `std::fs::copy`. -/
def attempt_acts (objOf : FsPath → FsObj) (detected_file dst : FsPath) : List FsAct :=
  match objOf detected_file with
  | .file _ _ => [FsAct.copyF detected_file dst]
  | .dir _ _ es => copy_dir_all_acts detected_file dst es

/-- `Mover::start` for the path `p`: `setup_destination_folder` then
`perform_move`.  `titleOf` models the external title extraction
(`anitomy`), `objOf` the source filesystem, `existsOf` the
`folder.exists()` probe and `outcomesOf` the retry-loop outcomes.  When
`setup_destination_folder` yields no destination (empty path — the
source panics), only the setup actions happen. -/
def mover_acts (destination : FsPath) (subfolder : Bool)
    (titleOf : String → Option String) (existsOf : FsPath → Bool)
    (objOf : FsPath → FsObj) (outcomesOf : FsPath → List StepOutcome)
    (p : FsPath) : List Act :=
  let title := p.getLast?.bind titleOf
  let s := setup_destination_folder destination p subfolder title existsOf
  match s.2 with
  | none => s.1.map Act.fs
  | some dst =>
    s.1.map Act.fs ++ (perform_move (attempt_acts objOf p dst) dst (outcomesOf p)).1

/-- The destination the Mover for `p` records into `MOVED_FILES`, when
its run reaches the terminal state (`none` otherwise). -/
def mover_moved_insert (destination : FsPath) (subfolder : Bool)
    (titleOf : String → Option String) (existsOf : FsPath → Bool)
    (objOf : FsPath → FsObj) (outcomesOf : FsPath → List StepOutcome)
    (p : FsPath) : Option FsPath :=
  let title := p.getLast?.bind titleOf
  let s := setup_destination_folder destination p subfolder title existsOf
  match s.2 with
  | none => none
  | some dst =>
    if (perform_move (attempt_acts objOf p dst) dst (outcomesOf p)).2 then some dst
    else none

/-- The whole Copy-mode pipeline's filesystem/registry actions for a
stream of Created events: dedup through `DETECTED_FILES`, then the
actions of every spawned Mover. -/
def copy_watcher_acts (destination : FsPath) (subfolder : Bool)
    (titleOf : String → Option String) (existsOf : FsPath → Bool)
    (objOf : FsPath → FsObj) (outcomesOf : FsPath → List StepOutcome)
    (events : List (List FsPath)) : List Act :=
  ((process_events [] events).2).flatMap
    (mover_acts destination subfolder titleOf existsOf objOf outcomesOf)

/-- The process-wide registries of `main.rs`: `DETECTED_FILES` and
`MOVED_FILES`. -/
structure RegState where
  detected : List FsPath
  moved : List FsPath
deriving DecidableEq, Repr

/-- One Copy-mode root processing a stream of Created events, starting
from registry state `st`: the filesystem/registry action trace, the
paths for which Movers were spawned, and the final registry state
(Movers that reach their terminal state append to `MOVED_FILES`). -/
def run_copy_mode (st : RegState) (destination : FsPath) (subfolder : Bool)
    (titleOf : String → Option String) (existsOf : FsPath → Bool)
    (objOf : FsPath → FsObj) (outcomesOf : FsPath → List StepOutcome)
    (events : List (List FsPath)) : List Act × List FsPath × RegState :=
  let r := process_events st.detected events
  let spawned := r.2
  (spawned.flatMap (mover_acts destination subfolder titleOf existsOf objOf outcomesOf),
   spawned,
   ⟨r.1,
    st.moved ++ spawned.filterMap
      (mover_moved_insert destination subfolder titleOf existsOf objOf outcomesOf)⟩)

/-! ## Mirror-mode watcher (`sync_watcher.rs`) -/

mutual
/-- The `walkdir` walk used by `SyncWatcher::scan_dir`: every plain file
under the object, paired with its size, at its full path under `pre`
(the walk yields `entry.path()`, which starts with the root as given).
Directories are not collected; a failed descent is logged and skipped. -/
def walk_files (pre : FsPath) : FsObj → List (FsPath × Nat)
  | .file n sz => [(pre ++ [n], sz)]
  | .dir _ false _ => []
  | .dir n true es => walk_files_list (pre ++ [n]) es

/-- `walk_files` over the entries of one directory, in order. -/
def walk_files_list (pre : FsPath) : List FsObj → List (FsPath × Nat)
  | [] => []
  | e :: rest => walk_files pre e ++ walk_files_list pre rest
end

/-- `SyncWatcher::scan_dir`: the `HashSet<FileCompare>` for the tree
rooted at `root` whose direct entries are `entries`.  A `FileCompare`
is `{ path: entry.path().to_path_buf(), size }` — the *full* path as
walked, not the path relative to the root. -/
def scan_dir (root : FsPath) (entries : List FsObj) : Finset (FsPath × Nat) :=
  (walk_files_list root entries).toFinset

/-- `SyncWatcher::remove_difference(base, other)` deletes from disk the
objects with fingerprints in `base.difference(&other)`; this is the set
it deletes. -/
def remove_difference_deleted (base other : Finset (FsPath × Nat)) : Finset (FsPath × Nat) :=
  base \ other

/-- `SyncWatcher::sync_dirs`, as the fingerprint sets that survive it:
both trees are scanned into `FileCompare` sets, then
`remove_difference(destination_list, source_list)` and
`remove_difference(source_list, destination_list)` delete the
asymmetric remainders from disk.  Components: `(source survivors,
destination survivors)`. -/
def sync_dirs_survivors (srcRoot dstRoot : FsPath) (src dst : List FsObj) :
    Finset (FsPath × Nat) × Finset (FsPath × Nat) :=
  let source_list := scan_dir srcRoot src
  let destination_list := scan_dir dstRoot dst
  (source_list \ remove_difference_deleted source_list destination_list,
   destination_list \ remove_difference_deleted destination_list source_list)

example : scan_dir ["s"] [FsObj.file "a.txt" 5] = {(["s", "a.txt"], 5)} := by decide
example :
    sync_dirs_survivors ["s"] ["d"] [FsObj.file "a.txt" 5] [FsObj.file "a.txt" 5]
      = (∅, ∅) := by decide

/-- How one Removed-event path fared in `SyncWatcher::delete_file`:
the deletion failed and was only logged (`droppedLogged`); the handler
finished, possibly pruning the parent (`done`); or an `unwrap` fired
(`panicked`), killing the root's task. -/
inductive DeleteResult where
  | droppedLogged
  | done (pruned : Bool)
  | panicked
deriving DecidableEq, Repr

/-- `SyncWatcher::delete_file`, one path of a Removed event.  The
mirrored path is `destination.join(path.strip_prefix(source).unwrap())`
(the `unwrap` panics when `path` is not under `source`).  On a failed
`remove_file` the error is logged and the event dropped.  On success
the parent directory is re-read (`read_dir(parent).unwrap()` — a
failure here panics) and removed when empty
(`remove_dir(parent).unwrap()` — a failure here panics too).
`removeOk` is the `remove_file` outcome, `dirCount` the entry count of
the parent (`none` when `read_dir` fails), `rmdirOk` the `remove_dir`
outcome. -/
def delete_file (source destination path : FsPath) (removeOk : Bool)
    (dirCount : Option Nat) (rmdirOk : Bool) : List FsAct × DeleteResult :=
  if source.isPrefixOf path then
    let destination_path := destination ++ path.drop source.length
    let parent := destination_path.dropLast
    if removeOk then
      match dirCount with
      | none => ([FsAct.removeF destination_path, FsAct.readDirA parent], DeleteResult.panicked)
      | some 0 =>
        ([FsAct.removeF destination_path, FsAct.readDirA parent, FsAct.removeD parent],
         if rmdirOk then DeleteResult.done true else DeleteResult.panicked)
      | some (_ + 1) =>
        ([FsAct.removeF destination_path, FsAct.readDirA parent], DeleteResult.done false)
    else
      ([FsAct.removeF destination_path], DeleteResult.droppedLogged)
  else
    ([], DeleteResult.panicked)

/-! ## Claim theorems -/

/-- Claim C1 is refuted by the code: `FileCompare` stores
`entry.path()`, the full walked path, not the path relative to the
root, so two trees rooted at different directories never share a
fingerprint.  Here source `s` and destination `d` each hold `a.txt` of
size 5 — the same relative fingerprint, whose intersection is
`{(a.txt, 5)}` — yet the startup pass deletes both copies, leaving both
trees empty instead of untouched. -/
theorem C1_reconciliation_deletes_matching_fingerprints :
    sync_dirs_survivors ["s"] ["d"] [FsObj.file "a.txt" 5] [FsObj.file "a.txt" 5]
      = (∅, ∅) ∧
    scan_dir [] [FsObj.file "a.txt" 5] ∩ scan_dir [] [FsObj.file "a.txt" 5]
      = {(["a.txt"], 5)} := by
  decide

/-- Claim C2 is refuted by the code: `path.ends_with(".partial")` is
Rust `Path::ends_with`, which matches whole components only.  A Created
event for `downloads/video.mkv.partial` — whose *filename* does end
with the `.partial` suffix — is therefore not dropped: it is inserted
into `DETECTED_FILES` and a Mover is spawned for it. -/
theorem C2_suffix_marker_not_dropped :
    copy_file [] [["downloads", "video.mkv.partial"]]
      = ([["downloads", "video.mkv.partial"]], [["downloads", "video.mkv.partial"]]) ∧
    "video.mkv.partial" = "video.mkv" ++ ".partial" := by
  decide

/-- Claim C4 is refuted by the code: `is_downloading` tests
`e.path().ends_with(".partial")`, a whole-component comparison, so a
directory holding `ep01.mkv.partial` — an entry whose *name* ends with
the `.partial` suffix — is reported as not in progress. -/
theorem C4_marker_suffix_not_in_progress :
    is_downloading ["downloads", "show"]
      (FsObj.dir "show" true [FsObj.file "ep01.mkv.partial" 100]) = some false ∧
    "ep01.mkv.partial" = "ep01.mkv" ++ ".partial" := by
  decide

/-- Claim C10: `is_downloading` is not total on directories — on a
directory whose entries cannot be read, `std::fs::read_dir(file).unwrap()`
panics (modelled as `none`) instead of returning a boolean. -/
theorem C10_unreadable_directory_probe_panics :
    is_downloading ["downloads", "gone"] (FsObj.dir "gone" false []) = none := by
  decide

/-- Counterexample to claim C3 as stated: the path
`w/.partial` is reported by two Created events, yet no Mover at all is
spawned for it (the marker guard drops every occurrence), not exactly
one. -/
theorem C3_marker_path_spawns_no_mover :
    ((process_events [] [[["w", ".partial"]], [["w", ".partial"]]]).2).count
      ["w", ".partial"] = 0 := by
  decide

/-- Counterexample to claim C7 as stated: not every filesystem failure
is logged and dropped.  When `remove_file` succeeds but the follow-up
`read_dir` of the parent fails, the unguarded `unwrap` panics and kills
the root's task. -/
theorem C7_parent_check_failure_panics :
    (delete_file ["s"] ["d"] ["s", "a", "b.txt"] true none true).2
      = DeleteResult.panicked := by
  decide

/-- Unfolding equation for `copy_file` on a cons cell. -/
theorem copy_file_cons (detected : List FsPath) (q : FsPath) (rest : List FsPath) :
    copy_file detected (q :: rest) =
      if (path_ends_with q markerSuffix || detected.contains q) = true then
        copy_file detected rest
      else
        ((copy_file (detected ++ [q]) rest).1, q :: (copy_file (detected ++ [q]) rest).2) := by
  rfl

/-- `DETECTED_FILES` after a `copy_file` call is the incoming set
extended by exactly the paths spawned during the call, in order. -/
theorem copy_file_detected_eq (paths : List FsPath) :
    ∀ detected : List FsPath,
      (copy_file detected paths).1 = detected ++ (copy_file detected paths).2 := by
  induction paths with
  | nil => intro detected; simp [copy_file]
  | cons q rest ih =>
    intro detected
    rw [copy_file_cons]
    by_cases hq : (path_ends_with q markerSuffix || detected.contains q) = true
    · rw [if_pos hq]; exact ih detected
    · rw [if_neg hq]
      show (copy_file (detected ++ [q]) rest).1
          = detected ++ (q :: (copy_file (detected ++ [q]) rest).2)
      rw [ih (detected ++ [q])]
      simp

/-- How many Movers one `copy_file` call spawns for the path `p`:
one when `p` is not a whole-component `.partial` marker, was not yet
detected and occurs among the event's paths; zero otherwise. -/
theorem copy_file_spawn_count (p : FsPath) (paths : List FsPath) :
    ∀ detected : List FsPath,
      ((copy_file detected paths).2).count p =
        if path_ends_with p markerSuffix = false ∧ p ∉ detected ∧ p ∈ paths
        then 1 else 0 := by
  induction paths with
  | nil => intro detected; simp [copy_file]
  | cons q rest ih =>
    intro detected
    rw [copy_file_cons]
    by_cases hq : (path_ends_with q markerSuffix || detected.contains q) = true
    · rw [if_pos hq, ih detected]
      by_cases hpq : p = q
      · subst hpq
        rcases Bool.or_eq_true_iff.mp hq with h | h
        · simp [h]
        · have hmem : p ∈ detected := by simpa using h
          simp [hmem]
      · simp [List.mem_cons, hpq]
    · rw [if_neg hq]
      rw [Bool.not_eq_true] at hq
      have hb' : path_ends_with q markerSuffix = false ∧ q ∉ detected := by
        have h2 := Bool.or_eq_false_iff.mp hq
        exact ⟨h2.1, by simpa using h2.2⟩
      show (q :: (copy_file (detected ++ [q]) rest).2).count p
          = if path_ends_with p markerSuffix = false ∧ p ∉ detected ∧ p ∈ q :: rest
            then 1 else 0
      by_cases hpq : p = q
      · subst hpq
        have hcond : ¬ (path_ends_with p markerSuffix = false
            ∧ p ∉ detected ++ [p] ∧ p ∈ rest) := by
          intro hcon
          exact hcon.2.1 (by simp)
        rw [List.count_cons_self, ih (detected ++ [p]), if_neg hcond,
          if_pos ⟨hb'.1, hb'.2, by simp⟩]
      · rw [List.count_cons_of_ne hpq, ih (detected ++ [q])]
        simp [List.mem_cons, List.mem_append, hpq]

/-- Membership in the spawn list of one `copy_file` call. -/
theorem copy_file_spawn_mem (p : FsPath) (paths detected : List FsPath) :
    p ∈ (copy_file detected paths).2 ↔
      path_ends_with p markerSuffix = false ∧ p ∉ detected ∧ p ∈ paths := by
  have h := copy_file_spawn_count p paths detected
  by_cases hc : path_ends_with p markerSuffix = false ∧ p ∉ detected ∧ p ∈ paths
  · rw [if_pos hc] at h
    exact ⟨fun _ => hc, fun _ => List.count_pos_iff.mp (by omega)⟩
  · rw [if_neg hc] at h
    exact ⟨fun hmem => absurd hmem (List.count_eq_zero.mp h), fun hcc => absurd hcc hc⟩

/-- `DETECTED_FILES` after the whole event stream is the incoming set
extended by exactly the spawned paths. -/
theorem process_events_detected_eq (evs : List (List FsPath)) :
    ∀ detected : List FsPath,
      (process_events detected evs).1 = detected ++ (process_events detected evs).2 := by
  induction evs with
  | nil => intro detected; simp [process_events]
  | cons ev rest ih =>
    intro detected
    simp only [process_events]
    rw [ih (copy_file detected ev).1, copy_file_detected_eq ev detected,
      List.append_assoc]

/-- How many Movers the whole Copy-mode event stream spawns for `p`:
one when `p` is not a whole-component `.partial` marker, not already in
`DETECTED_FILES` and reported by some event; zero otherwise. -/
theorem process_events_spawn_count (p : FsPath) (evs : List (List FsPath)) :
    ∀ detected : List FsPath,
      ((process_events detected evs).2).count p =
        if path_ends_with p markerSuffix = false ∧ p ∉ detected ∧ p ∈ evs.flatten
        then 1 else 0 := by
  induction evs with
  | nil => intro detected; simp [process_events]
  | cons ev rest ih =>
    intro detected
    simp only [process_events, List.count_append]
    rw [copy_file_spawn_count p ev detected, ih (copy_file detected ev).1,
      copy_file_detected_eq ev detected]
    by_cases hm : path_ends_with p markerSuffix = false
    · by_cases hdet : p ∈ detected
      · simp [hdet]
      · by_cases hev : p ∈ ev
        · have hs1 : p ∈ (copy_file detected ev).2 :=
            (copy_file_spawn_mem p ev detected).mpr ⟨hm, hdet, hev⟩
          simp [hm, hdet, hev, hs1]
        · have hs1 : p ∉ (copy_file detected ev).2 := fun h =>
            hev ((copy_file_spawn_mem p ev detected).mp h).2.2
          simp [hm, hdet, hev, hs1]
    · rw [Bool.not_eq_false] at hm
      simp [hm]

/-- Claim C3, amended: for every path reported by the Created events of
one process lifetime, if its final component is the literal `.partial`
marker it is never inserted into `DETECTED_FILES` and no Mover is ever
spawned for it; otherwise it is inserted exactly once and exactly one
Mover is spawned for it, every later occurrence being a no-op.  (The
claim as stated — exactly one Mover for *every* twice-reported path —
fails for marker paths, see `C3_marker_path_spawns_no_mover`.) -/
theorem C3_at_most_once_amended (evs : List (List FsPath)) (p : FsPath)
    (hmem : p ∈ evs.flatten) :
    if path_ends_with p markerSuffix = true then
      ((process_events [] evs).2).count p = 0 ∧ ((process_events [] evs).1).count p = 0
    else
      ((process_events [] evs).2).count p = 1 ∧ ((process_events [] evs).1).count p = 1 := by
  have hs := process_events_spawn_count p evs []
  have hd := process_events_detected_eq evs []
  by_cases hm : path_ends_with p markerSuffix = true
  · rw [if_pos hm]
    have hneg : ¬ (path_ends_with p markerSuffix = false
        ∧ p ∉ ([] : List FsPath) ∧ p ∈ evs.flatten) := by
      simp [hm]
    rw [if_neg hneg] at hs
    exact ⟨hs, by rw [hd]; simpa using hs⟩
  · rw [if_neg hm]
    rw [Bool.not_eq_true] at hm
    rw [if_pos ⟨hm, by simp, hmem⟩] at hs
    exact ⟨hs, by rw [hd]; simpa using hs⟩

/-- Concrete instance of `C3_at_most_once_amended`: the (non-marker)
path `w/a.mkv` is reported by two Created events; exactly one Mover is
spawned and the path sits in `DETECTED_FILES` exactly once. -/
theorem C3_at_most_once_amended_witness :
    (["w", "a.mkv"] : FsPath) ∈
      ([[["w", "a.mkv"]], [["w", "a.mkv"]]] : List (List FsPath)).flatten ∧
    (if path_ends_with ["w", "a.mkv"] markerSuffix = true then
       ((process_events [] [[["w", "a.mkv"]], [["w", "a.mkv"]]]).2).count ["w", "a.mkv"] = 0 ∧
       ((process_events [] [[["w", "a.mkv"]], [["w", "a.mkv"]]]).1).count ["w", "a.mkv"] = 0
     else
       ((process_events [] [[["w", "a.mkv"]], [["w", "a.mkv"]]]).2).count ["w", "a.mkv"] = 1 ∧
       ((process_events [] [[["w", "a.mkv"]], [["w", "a.mkv"]]]).1).count ["w", "a.mkv"] = 1) :=
  ⟨by decide, C3_at_most_once_amended _ _ (by decide)⟩

/-- Claim C5: the Mover's destination is a deterministic function of the
configuration and the detected filename — with subfolder placement on
and a title extracted from the filename it is
`<destination>/<title>/<filename>`, otherwise `<destination>/<filename>`
(`titleOf` models the external title extraction applied to the
filename, as `Mover::new` does). -/
theorem C5_destination_formula (destination detected_file : FsPath) (subfolder : Bool)
    (titleOf : String → Option String) (existsOf : FsPath → Bool) (fname : String)
    (h : detected_file.getLast? = some fname) :
    (setup_destination_folder destination detected_file subfolder
        (detected_file.getLast?.bind titleOf) existsOf).2 =
      some (match titleOf fname, subfolder with
            | some t, true => destination ++ [t, fname]
            | _, _ => destination ++ [fname]) := by
  rw [h]
  cases ht : titleOf fname with
  | none => cases subfolder <;> simp [setup_destination_folder, h, ht]
  | some t => cases subfolder <;> simp [setup_destination_folder, h, ht]

/-- Concrete instance of `C5_destination_formula`: detected file
`w/Show - 01.mkv`, title `Show`, subfolder placement on — the
destination is `d/Show/Show - 01.mkv`. -/
theorem C5_destination_formula_witness :
    (["w", "Show - 01.mkv"] : FsPath).getLast? = some "Show - 01.mkv" ∧
    (setup_destination_folder ["d"] ["w", "Show - 01.mkv"] true
        ((["w", "Show - 01.mkv"] : FsPath).getLast?.bind (fun _ => some "Show"))
        (fun _ => true)).2
      = some ["d", "Show", "Show - 01.mkv"] :=
  ⟨by decide,
   C5_destination_formula ["d"] ["w", "Show - 01.mkv"] true (fun _ => some "Show")
     (fun _ => true) "Show - 01.mkv" (by decide)⟩

/-- No `MOVED_FILES` insertion hides among the lifted filesystem
operations of a copy attempt. -/
theorem count_recordMoved_map_fs (attempt : List FsAct) (d : FsPath) :
    (attempt.map Act.fs).count (Act.recordMoved d) = 0 := by
  rw [List.count_eq_zero]
  intro h
  rcases List.mem_map.mp h with ⟨a, _, ha⟩
  exact Act.noConfusion ha

/-- Claim C6: if some copy attempt eventually succeeds, the retry loop
of `perform_move` terminates in the Done state, and the destination is
recorded into `MOVED_FILES` exactly once, as the very last action —
i.e. only after the copy has fully succeeded. -/
theorem C6_retry_liveness (attempt : List FsAct) (destination : FsPath)
    (outcomes : List StepOutcome) (h : StepOutcome.copySuccess ∈ outcomes) :
    (perform_move attempt destination outcomes).2 = true ∧
    ((perform_move attempt destination outcomes).1).count (Act.recordMoved destination) = 1 ∧
    ((perform_move attempt destination outcomes).1).getLast?
      = some (Act.recordMoved destination) := by
  induction outcomes with
  | nil => cases h
  | cons o rest ih =>
    cases o with
    | busy =>
      have hrest : StepOutcome.copySuccess ∈ rest := by
        rcases List.mem_cons.mp h with h1 | h1
        · exact absurd h1 (by decide)
        · exact h1
      obtain ⟨h1, h2, h3⟩ := ih hrest
      have hne : (Act.recordMoved destination) ≠ Act.sleep := by simp
      refine ⟨h1, ?_, ?_⟩
      · show ((Act.sleep :: (perform_move attempt destination rest).1).count
          (Act.recordMoved destination)) = 1
        rw [List.count_cons_of_ne hne, h2]
      · show (Act.sleep :: (perform_move attempt destination rest).1).getLast?
          = some (Act.recordMoved destination)
        rw [show Act.sleep :: (perform_move attempt destination rest).1
            = [Act.sleep] ++ (perform_move attempt destination rest).1 from rfl,
          List.getLast?_append, h3]
        rfl
    | copyFail =>
      have hrest : StepOutcome.copySuccess ∈ rest := by
        rcases List.mem_cons.mp h with h1 | h1
        · exact absurd h1 (by decide)
        · exact h1
      obtain ⟨h1, h2, h3⟩ := ih hrest
      have hne : (Act.recordMoved destination) ≠ Act.sleep := by simp
      refine ⟨h1, ?_, ?_⟩
      · show ((Act.sleep :: (attempt.map Act.fs
            ++ (perform_move attempt destination rest).1)).count
          (Act.recordMoved destination)) = 1
        rw [List.count_cons_of_ne hne, List.count_append, count_recordMoved_map_fs, h2]
      · show (Act.sleep :: (attempt.map Act.fs
            ++ (perform_move attempt destination rest).1)).getLast?
          = some (Act.recordMoved destination)
        rw [show (Act.sleep :: (attempt.map Act.fs
              ++ (perform_move attempt destination rest).1))
            = ([Act.sleep] ++ attempt.map Act.fs)
              ++ (perform_move attempt destination rest).1 from by simp,
          List.getLast?_append, h3]
        rfl
    | copySuccess =>
      have hne : (Act.recordMoved destination) ≠ Act.sleep := by simp
      refine ⟨rfl, ?_, ?_⟩
      · show ((Act.sleep :: (attempt.map Act.fs ++ [Act.recordMoved destination])).count
          (Act.recordMoved destination)) = 1
        rw [List.count_cons_of_ne hne, List.count_append, count_recordMoved_map_fs]
        simp
      · show (Act.sleep :: (attempt.map Act.fs ++ [Act.recordMoved destination])).getLast?
          = some (Act.recordMoved destination)
        rw [show (Act.sleep :: (attempt.map Act.fs ++ [Act.recordMoved destination]))
            = (Act.sleep :: attempt.map Act.fs) ++ [Act.recordMoved destination] from by simp,
          List.getLast?_concat]

/-- Concrete instance of `C6_retry_liveness`: one busy probe, one failed
attempt, then a successful attempt — the Mover finishes and records the
destination once, at the end. -/
theorem C6_retry_liveness_witness :
    StepOutcome.copySuccess ∈
      [StepOutcome.busy, StepOutcome.copyFail, StepOutcome.copySuccess] ∧
    ((perform_move [FsAct.copyF ["w", "a.mkv"] ["d", "a.mkv"]] ["d", "a.mkv"]
        [StepOutcome.busy, StepOutcome.copyFail, StepOutcome.copySuccess]).2 = true ∧
     ((perform_move [FsAct.copyF ["w", "a.mkv"] ["d", "a.mkv"]] ["d", "a.mkv"]
        [StepOutcome.busy, StepOutcome.copyFail, StepOutcome.copySuccess]).1).count
        (Act.recordMoved ["d", "a.mkv"]) = 1 ∧
     ((perform_move [FsAct.copyF ["w", "a.mkv"] ["d", "a.mkv"]] ["d", "a.mkv"]
        [StepOutcome.busy, StepOutcome.copyFail, StepOutcome.copySuccess]).1).getLast?
        = some (Act.recordMoved ["d", "a.mkv"])) :=
  ⟨by decide, C6_retry_liveness _ _ _ (by decide)⟩

/-- Claim C7, amended: for every Removed-event path under the source
root, the handler first deletes the mirrored destination path; a failure
of *that* deletion is logged and the event dropped without aborting.
After a successful deletion the parent directory is checked and, when
empty, removed — and any `remove_dir` ever issued targets exactly the
immediate parent, never a grandparent.  However (contrary to the claim
as stated) a filesystem failure during the parent check or the parent
removal is not logged-and-dropped: it panics the root's task
(see `C7_parent_check_failure_panics`). -/
theorem C7_removed_event_handling_amended (source destination path : FsPath)
    (removeOk : Bool) (dirCount : Option Nat) (rmdirOk : Bool)
    (hp : source.isPrefixOf path = true) :
    ((delete_file source destination path removeOk dirCount rmdirOk).1).head?
      = some (FsAct.removeF (destination ++ path.drop source.length)) ∧
    (removeOk = false →
      delete_file source destination path removeOk dirCount rmdirOk
        = ([FsAct.removeF (destination ++ path.drop source.length)],
           DeleteResult.droppedLogged)) ∧
    (∀ q, FsAct.removeD q ∈ (delete_file source destination path removeOk dirCount rmdirOk).1 →
      q = (destination ++ path.drop source.length).dropLast) ∧
    (removeOk = true → dirCount = some 0 → rmdirOk = true →
      (delete_file source destination path removeOk dirCount rmdirOk).2
        = DeleteResult.done true ∧
      FsAct.removeD ((destination ++ path.drop source.length).dropLast)
        ∈ (delete_file source destination path removeOk dirCount rmdirOk).1) ∧
    (∀ n, removeOk = true → dirCount = some (n + 1) →
      (delete_file source destination path removeOk dirCount rmdirOk).2
        = DeleteResult.done false ∧
      ∀ q, FsAct.removeD q ∉ (delete_file source destination path removeOk dirCount rmdirOk).1) ∧
    (removeOk = true → dirCount = none →
      (delete_file source destination path removeOk dirCount rmdirOk).2
        = DeleteResult.panicked) ∧
    (removeOk = true → dirCount = some 0 → rmdirOk = false →
      (delete_file source destination path removeOk dirCount rmdirOk).2
        = DeleteResult.panicked) := by
  cases removeOk <;> rcases dirCount with _ | (_ | n) <;> cases rmdirOk <;>
    simp [delete_file, hp]

/-- Concrete instance of `C7_removed_event_handling_amended`: removing
`s/a/b.txt` mirrors to deleting `d/a/b.txt`; with the parent then empty
and `remove_dir` succeeding, the handler finishes having pruned the
parent. -/
theorem C7_removed_event_handling_amended_witness :
    ((delete_file ["s"] ["d"] ["s", "a", "b.txt"] true (some 0) true).1).head?
      = some (FsAct.removeF ["d", "a", "b.txt"]) ∧
    (delete_file ["s"] ["d"] ["s", "a", "b.txt"] true (some 0) true).2
      = DeleteResult.done true := by
  have h := C7_removed_event_handling_amended ["s"] ["d"] ["s", "a", "b.txt"]
    true (some 0) true (by decide)
  exact ⟨h.1, (h.2.2.2.1 rfl rfl rfl).1⟩

/-- `create_folder` never issues a deleting operation. -/
theorem create_folder_acts_no_remove (existsOf : FsPath → Bool) (folder : FsPath) :
    ∀ a ∈ create_folder_acts existsOf folder, a.is_remove = false := by
  intro a ha
  rw [create_folder_acts] at ha
  by_cases h : existsOf folder = true
  · rw [if_pos h] at ha; cases ha
  · rw [if_neg h] at ha
    rcases List.mem_singleton.mp ha with rfl
    rfl

mutual
/-- `copy_dir_all` never issues a deleting operation. -/
theorem copy_dir_all_acts_no_remove (src dst : FsPath) (entries : List FsObj) :
    ∀ a ∈ copy_dir_all_acts src dst entries, a.is_remove = false := by
  intro a ha
  rw [copy_dir_all_acts] at ha
  rcases List.mem_cons.mp ha with h | h
  · subst h; rfl
  · exact copy_entries_acts_no_remove src dst entries a h

/-- The entry loop of `copy_dir_all` never issues a deleting operation. -/
theorem copy_entries_acts_no_remove (src dst : FsPath) (entries : List FsObj) :
    ∀ a ∈ copy_entries_acts src dst entries, a.is_remove = false := by
  match entries with
  | [] =>
    intro a ha
    rw [copy_entries_acts] at ha
    cases ha
  | .file n sz :: rest =>
    intro a ha
    rw [copy_entries_acts] at ha
    rcases List.mem_cons.mp ha with h | h
    · subst h; rfl
    · exact copy_entries_acts_no_remove src dst rest a h
  | .dir n r es :: rest =>
    intro a ha
    rw [copy_entries_acts] at ha
    rcases List.mem_append.mp ha with h | h
    · exact copy_dir_all_acts_no_remove (src ++ [n]) (dst ++ [n]) es a h
    · exact copy_entries_acts_no_remove src dst rest a h
end

/-- A Mover's copy attempt never issues a deleting operation. -/
theorem attempt_acts_no_remove (objOf : FsPath → FsObj) (p dst : FsPath) :
    ∀ a ∈ attempt_acts objOf p dst, a.is_remove = false := by
  intro a ha
  rw [attempt_acts] at ha
  cases h : objOf p with
  | file n sz =>
    rw [h] at ha
    rcases List.mem_singleton.mp ha with rfl
    rfl
  | dir n r es =>
    rw [h] at ha
    exact copy_dir_all_acts_no_remove p dst es a ha

/-- The retry loop never issues a deleting operation when the copy
attempt itself does not. -/
theorem perform_move_no_remove (attempt : List FsAct) (destination : FsPath)
    (outcomes : List StepOutcome)
    (hatt : ∀ b ∈ attempt, b.is_remove = false) :
    ∀ a ∈ (perform_move attempt destination outcomes).1, a.has_remove = false := by
  induction outcomes with
  | nil => intro a ha; cases ha
  | cons o rest ih =>
    cases o with
    | busy =>
      intro a ha
      rcases List.mem_cons.mp ha with h | h
      · subst h; rfl
      · exact ih a h
    | copyFail =>
      intro a ha
      rcases List.mem_cons.mp ha with h | h
      · subst h; rfl
      · rcases List.mem_append.mp h with h2 | h2
        · rcases List.mem_map.mp h2 with ⟨b, hb, rfl⟩
          exact hatt b hb
        · exact ih a h2
    | copySuccess =>
      intro a ha
      rcases List.mem_cons.mp ha with h | h
      · subst h; rfl
      · rcases List.mem_append.mp h with h2 | h2
        · rcases List.mem_map.mp h2 with ⟨b, hb, rfl⟩
          exact hatt b hb
        · rcases List.mem_singleton.mp h2 with rfl
          rfl

/-- `setup_destination_folder` never issues a deleting operation. -/
theorem setup_destination_folder_no_remove (destination detected_file : FsPath)
    (subfolder : Bool) (title : Option String) (existsOf : FsPath → Bool) :
    ∀ b ∈ (setup_destination_folder destination detected_file subfolder title existsOf).1,
      b.is_remove = false := by
  intro b hb
  rcases title with _ | t <;> cases subfolder <;>
    simp only [setup_destination_folder] at hb <;>
    exact create_folder_acts_no_remove _ _ b hb

/-- A whole Mover run never issues a deleting operation. -/
theorem mover_acts_no_remove (destination : FsPath) (subfolder : Bool)
    (titleOf : String → Option String) (existsOf : FsPath → Bool)
    (objOf : FsPath → FsObj) (outcomesOf : FsPath → List StepOutcome) (p : FsPath) :
    ∀ a ∈ mover_acts destination subfolder titleOf existsOf objOf outcomesOf p,
      a.has_remove = false := by
  intro a ha
  simp only [mover_acts] at ha
  cases hs : (setup_destination_folder destination p subfolder
      (p.getLast?.bind titleOf) existsOf).2 with
  | none =>
    rw [hs] at ha
    rcases List.mem_map.mp ha with ⟨b, hb, rfl⟩
    exact setup_destination_folder_no_remove _ _ _ _ _ b hb
  | some dst =>
    rw [hs] at ha
    rcases List.mem_append.mp ha with h | h
    · rcases List.mem_map.mp h with ⟨b, hb, rfl⟩
      exact setup_destination_folder_no_remove _ _ _ _ _ b hb
    · exact perform_move_no_remove _ _ _ (attempt_acts_no_remove objOf p dst) a h

/-- Claim C8: in Copy mode no reachable action of the watcher or of any
Mover it spawns ever deletes a filesystem object — for every event
stream, source tree, title extraction, folder-existence state and
retry-loop behaviour, every action in the pipeline's trace is a
non-deleting one. -/
theorem C8_copy_mode_never_deletes (destination : FsPath) (subfolder : Bool)
    (titleOf : String → Option String) (existsOf : FsPath → Bool)
    (objOf : FsPath → FsObj) (outcomesOf : FsPath → List StepOutcome)
    (events : List (List FsPath)) :
    (copy_watcher_acts destination subfolder titleOf existsOf objOf outcomesOf events).all
      (fun a => !a.has_remove) = true := by
  rw [List.all_eq_true]
  intro a ha
  rw [copy_watcher_acts] at ha
  rcases List.mem_flatMap.mp ha with ⟨p, _, hp2⟩
  have h := mover_acts_no_remove destination subfolder titleOf existsOf objOf outcomesOf p a hp2
  simp [h]

/-- Claim C9: `MOVED_FILES` is write-only — two runs of the Copy-mode
pipeline that differ only in the initial contents of `MOVED_FILES`
produce the same filesystem action trace, the same Mover spawns, the
same final `DETECTED_FILES`, and append the same new entries to
`MOVED_FILES`. -/
theorem C9_moved_files_write_only (destination : FsPath) (subfolder : Bool)
    (titleOf : String → Option String) (existsOf : FsPath → Bool)
    (objOf : FsPath → FsObj) (outcomesOf : FsPath → List StepOutcome)
    (events : List (List FsPath)) (detected m1 m2 : List FsPath) :
    (run_copy_mode ⟨detected, m1⟩ destination subfolder titleOf existsOf objOf
        outcomesOf events).1
      = (run_copy_mode ⟨detected, m2⟩ destination subfolder titleOf existsOf objOf
        outcomesOf events).1 ∧
    (run_copy_mode ⟨detected, m1⟩ destination subfolder titleOf existsOf objOf
        outcomesOf events).2.1
      = (run_copy_mode ⟨detected, m2⟩ destination subfolder titleOf existsOf objOf
        outcomesOf events).2.1 ∧
    (run_copy_mode ⟨detected, m1⟩ destination subfolder titleOf existsOf objOf
        outcomesOf events).2.2.detected
      = (run_copy_mode ⟨detected, m2⟩ destination subfolder titleOf existsOf objOf
        outcomesOf events).2.2.detected ∧
    ((run_copy_mode ⟨detected, m1⟩ destination subfolder titleOf existsOf objOf
        outcomesOf events).2.2.moved).drop m1.length
      = ((run_copy_mode ⟨detected, m2⟩ destination subfolder titleOf existsOf objOf
        outcomesOf events).2.2.moved).drop m2.length := by
  refine ⟨rfl, rfl, rfl, ?_⟩
  simp only [run_copy_mode]
  rw [List.drop_left, List.drop_left]
